import Mathlib

/-!
Verification development for the persistence layer of the gestorvida
repository (src/github_db.py and its callers): a versioned-document CAS
client over a remote JSON content store, plus the collection CRUD
transforms built on it.

JSON values are modelled by the inductive type JVal; JSON numbers are
modelled as integers, which covers every id value handled by this layer.
Python dictionaries are modelled as ordered key-value lists (PyDict),
matching insertion-order semantics.  Fallible Python code (updaters that
can raise) is modelled with Option.  The two clock-reading transforms
receive the clock value as an explicit argument.  The remote store is a
state (Store) threaded explicitly; concurrent writers and other
interference are modelled by an environment (Env) of store transformers
applied between the primitive transport steps of each attempt.
-/

set_option linter.unusedVariables false

/-- JSON value. Numbers are restricted to integers: every numeric field this
layer inspects (the id fields) is an integer in the repository data model. -/
inductive JVal where
  | jnull
  | jbool (b : Bool)
  | jint (n : Int)
  | jstr (s : String)
  | jarr (xs : List JVal)
  | jobj (fields : List (String × JVal))

/-- Python dict modelled as an ordered association list (insertion order). -/
abbrev PyDict := List (String × JVal)

/-- Python d.get(k): value of the first (hence only) entry with key k. -/
def dget (d : PyDict) (k : String) : Option JVal :=
  match d with
  | [] => none
  | (k', v) :: rest => if k' = k then some v else dget rest k

/-- Python d[k] = v: replace the value in place if the key exists, else append. -/
def dset (d : PyDict) (k : String) (v : JVal) : PyDict :=
  match d with
  | [] => [(k, v)]
  | (k', v') :: rest => if k' = k then (k, v) :: rest else (k', v') :: dset rest k v

/-- Python d.update(patch): set each key of patch in order. -/
def dupdate (d : PyDict) (patch : PyDict) : PyDict :=
  match patch with
  | [] => d
  | (k, v) :: rest => dupdate (dset d k v) rest

/-- Python d.setdefault(k, v): insert (k, v) at the end only when k is absent. -/
def dsetdefault (d : PyDict) (k : String) (v : JVal) : PyDict :=
  match dget d k with
  | some _ => d
  | none => d ++ [(k, v)]

/-- Removal of every entry with key k; a modelling helper (used to compare
records up to their timestamp fields), not a Python operation. -/
def dremove (k : String) (d : PyDict) : PyDict :=
  match d with
  | [] => []
  | (k', v) :: rest => if k' = k then dremove k rest else (k', v) :: dremove k rest

/-- Python truthiness test (False for None, False, 0, "", [] and empty dicts). -/
def pyFalsy : JVal → Bool
  | .jnull => true
  | .jbool b => !b
  | .jint n => n == 0
  | .jstr s => s.isEmpty
  | .jarr xs => xs.isEmpty
  | .jobj fs => fs.isEmpty

/-- Python int(x): identity on ints, 0/1 on bools, digit parsing on strings,
TypeError (none) on the other JSON values. -/
def pyToInt : JVal → Option Int
  | .jint n => some n
  | .jbool b => some (if b then 1 else 0)
  | .jstr s => s.toInt?
  | _ => none

/-- Python `obj or []` applied to the result of a fetch (None becomes a missing
value): any falsy value becomes the empty list, a truthy value is kept. -/
def pyOrEmptyList (obj : Option JVal) : JVal :=
  match obj with
  | none => .jarr []
  | some v => if pyFalsy v then .jarr [] else v

/-- Python `v or d` for a supplied default d. -/
def pyOrDefault (v d : JVal) : JVal := if pyFalsy v then d else v

/-- Python `(o or 0)` where o is an optional value (absent key treated as None). -/
def pyOrIntZero (o : Option JVal) : JVal :=
  match o with
  | none => .jint 0
  | some v => if pyFalsy v then .jint 0 else v

/-- Python max over a list of ints; none models the ValueError on an empty list. -/
def listMax : List Int → Option Int
  | [] => none
  | x :: xs => some (xs.foldl max x)

/-!
Blob transport.  The remote store keeps, per path, an optional document
(content and version token) plus a counter supplying fresh version tokens.
This development models a single path, the one the operation under study
touches.
-/

/-- State of the remote document at one path: current content with its version
token, plus a counter from which fresh version tokens are drawn. -/
structure Store where
  doc : Option (JVal × Nat)
  ctr : Nat

/-- Possible outcomes of the HTTP GET in gh_get_file (github_db.py:34-60):
a network exception, a 200 whose body may or may not decode, a 404, or
another HTTP status. -/
inductive GetResponse where
  | netFailure
  | ok (decoded : Option JVal) (sha : Nat)
  | notFound
  | httpError (code : Nat)

/-- gh_get_file (github_db.py:34-60). Returns the (content, sha) pair the
Python function returns, together with a flag recording whether st.error was
invoked (the only signal distinguishing failures from a missing path). -/
def gh_get_file : GetResponse → (Option JVal × Option Nat) × Bool
  | .netFailure => ((none, none), true)
  | .ok (some obj) sha => ((some obj, some sha), false)
  | .ok none _ => ((none, none), true)
  | .notFound => ((none, none), false)
  | .httpError _ => ((none, none), true)

/-- Response the store produces for a GET when the transport itself does not
fail: 200 with the document, or 404 when the path does not exist. -/
def storeResponse (s : Store) : GetResponse :=
  match s.doc with
  | none => .notFound
  | some (c, v) => .ok (some c) v

/-- Fetch step of the engine: gh_get_file applied to the store response. -/
def fetchStore (s : Store) : Option JVal × Option Nat :=
  (gh_get_file (storeResponse s)).1

/-- gh_put_file (github_db.py:62-99) against the store: the write succeeds and
returns a fresh sha exactly when the presented sha matches the current state
(no sha and no document, or matching sha on an existing document); a stale or
missing sha yields None (the 409/422 paths), leaving the store unchanged. -/
def gh_put_file (s : Store) (obj : JVal) (sha : Option Nat) : Option Nat × Store :=
  match s.doc, sha with
  | none, none => (some s.ctr, ⟨some (obj, s.ctr), s.ctr + 1⟩)
  | some (_, v), some sh =>
      if sh = v then (some s.ctr, ⟨some (obj, s.ctr), s.ctr + 1⟩)
      else (none, s)
  | _, _ => (none, s)

/-- Interference from concurrent sessions: a store transformer applied before
the fetch of attempt i, and one applied between the fetch and the put of
attempt i.  The identity environment models an uncontended store. -/
structure Env where
  pre : Nat → Store → Store
  mid : Nat → Store → Store

/-- Environment with no concurrent activity. -/
def idEnv : Env := ⟨fun _ s => s, fun _ s => s⟩

/-- Retry loop body of safe_update_json (github_db.py:101-136).  Arguments:
attempt index, remaining attempts, store, number of puts issued so far.
Each attempt fetches, applies the updater (a raising updater aborts with
(None, None) and no further write), then puts with the fetched sha; a failed
put is retried.  Returns the result pair, the final store, and the total
number of put calls issued. -/
def safe_update_go (upd : Option JVal → Option JVal) (env : Env) :
    Nat → Nat → Store → Nat → Option (JVal × Nat) × Store × Nat
  | _, 0, s, w => (none, s, w)
  | i, fuel + 1, s, w =>
    match upd (fetchStore (env.pre i s)).1 with
    | none => (none, env.pre i s, w)
    | some cand =>
      match gh_put_file (env.mid i (env.pre i s)) cand (fetchStore (env.pre i s)).2 with
      | (some newSha, s3) => (some (cand, newSha), s3, w + 1)
      | (none, s3) => safe_update_go upd env (i + 1) fuel s3 (w + 1)

/-- safe_update_json (github_db.py:101-136): run up to maxRetries attempts
starting from attempt 0 with no writes issued yet. -/
def safe_update_json (upd : Option JVal → Option JVal) (env : Env)
    (maxRetries : Nat) (s : Store) : Option (JVal × Nat) × Store × Nat :=
  safe_update_go upd env 0 maxRetries s 0

/-- One full interference step of attempt i (the two env actions in order). -/
def envStep (env : Env) (i : Nat) (s : Store) : Store := env.mid i (env.pre i s)

/-- Store obtained from s by the interference of attempts i, i+1, ..., i+n-1
alone, with no successful write by the caller under study. -/
def envTraceFrom (env : Env) : Nat → Nat → Store → Store
  | _, 0, s => s
  | i, n + 1, s => envTraceFrom env (i + 1) n (envStep env i s)

/-!
Collection transforms (the updaters fed to safe_update_json).
-/

/-- Id extraction of inserir_transacao (github_db.py:200): the comprehension
int(r.get("id", 0)) over the dict elements; none models a raising int(). -/
def transacaoIds : List JVal → Option (List Int)
  | [] => some []
  | .jobj r :: xs =>
      (match pyToInt ((dget r "id").getD (.jint 0)) with
       | some n => (transacaoIds xs).map (n :: ·)
       | none => none)
  | _ :: xs => transacaoIds xs

/-- Updater of inserir_transacao (github_db.py:197-205): next id is
max(ids) + 1, or 1 on an empty array; the caller fields are appended with that
id.  A truthy non-list document makes the id computation raise (none). -/
def inserir_transacao_updater (reg : PyDict) (obj : Option JVal) : Option JVal :=
  match pyOrEmptyList obj with
  | .jarr xs =>
      if xs.isEmpty then some (.jarr (xs ++ [.jobj (dset reg "id" (.jint 1))]))
      else
        (match transacaoIds xs with
         | none => none
         | some ids =>
           match listMax ids with
           | none => none
           | some m => some (.jarr (xs ++ [.jobj (dset reg "id" (.jint (m + 1)))])))
  | _ => none

/-- Per-row action of the update-by-id updater: a dict row with the matching
id is patched in place by r.update(patch); other rows are untouched; a row
whose id does not convert makes int() raise (none). -/
def patchRow (tid : Int) (patch : PyDict) : JVal → Option JVal
  | .jobj r =>
      (match pyToInt ((dget r "id").getD (.jint (-1))) with
       | none => none
       | some n => some (if n = tid then .jobj (dupdate r patch) else .jobj r))
  | v => some v

/-- Option-valued map over the rows of a collection. -/
def mapRowsM (f : JVal → Option JVal) : List JVal → Option (List JVal)
  | [] => some []
  | x :: xs =>
      (match f x with
       | none => none
       | some y => (mapRowsM f xs).map (y :: ·))

/-- Shared updater body of atualizar_transacao (github_db.py:207-214) and
atualizar_task (github_db.py:358-365), which are textually identical: patch
every dict row whose id equals the given id, return the array otherwise
unchanged.  A truthy dict or string document is iterated without finding dict
rows and returned unchanged; truthy non-iterables raise (none). -/
def atualizar_registro_updater (tid : Int) (patch : PyDict) (obj : Option JVal) : Option JVal :=
  match pyOrEmptyList obj with
  | .jarr xs => (mapRowsM (patchRow tid patch) xs).map .jarr
  | .jobj fs => some (.jobj fs)
  | .jstr s => some (.jstr s)
  | _ => none

/-- Option-valued filter keeping the rows on which the predicate is true. -/
def filterRowsM (p : JVal → Option Bool) : List JVal → Option (List JVal)
  | [] => some []
  | x :: xs =>
      (match p x with
       | none => none
       | some true => (filterRowsM p xs).map (x :: ·)
       | some false => filterRowsM p xs)

/-- Keep predicate of the delete-by-id updaters: drop dict rows whose id
converts to the given id; a non-converting id raises (none). -/
def delRow (tid : Int) : JVal → Option Bool
  | .jobj r =>
      (match pyToInt ((dget r "id").getD (.jint (-1))) with
       | none => none
       | some n => some (n != tid))
  | _ => some true

/-- Shared updater body of deletar_transacao (github_db.py:216-220) and
deletar_task (github_db.py:367-371): the list comprehension keeping every row
that is not a dict with the matching id.  Comprehending over a truthy dict
yields the list of its keys; over a string, its characters. -/
def deletar_registro_updater (tid : Int) (obj : Option JVal) : Option JVal :=
  match pyOrEmptyList obj with
  | .jarr xs => (filterRowsM (delRow tid) xs).map .jarr
  | .jobj fs => some (.jarr (fs.map (fun kv => .jstr kv.1)))
  | .jstr s => some (.jarr (s.toList.map (fun c => .jstr (String.mk [c]))))
  | _ => none

/-- Robust id collection of inserir_task (github_db.py:324-332):
int(r.get("id") or 0) per dict row, skipping rows where int() raises. -/
def taskIds : List JVal → List Int
  | [] => []
  | .jobj r :: xs =>
      (match pyToInt (pyOrIntZero (dget r "id")) with
       | some n => n :: taskIds xs
       | none => taskIds xs)
  | _ :: xs => taskIds xs

/-- Write-time defaults applied by inserir_task (github_db.py:338-344) to the
new record after the id is set. -/
def task_write_defaults (reg2 : PyDict) : PyDict :=
  let r1 := dsetdefault reg2 "status" (.jstr "todo")
  let r2 := dsetdefault r1 "assignee" (.jstr "Ambos")
  let r3 := dsetdefault r2 "type" (.jstr "task")
  let r4 := dsetdefault r3 "priority" (.jstr "normal")
  let r5 := dsetdefault r4 "tags" (.jarr [])
  let r6 := dsetdefault r5 "recurrence" .jnull
  dsetdefault r6 "reminders" (.jarr [])

/-- Updater of inserir_task (github_db.py:321-347): a non-list document is
replaced by [], ids are collected robustly, the next id is max(ids) + 1 or 1
when no id converted, and the record is appended with write-time defaults. -/
def inserir_task_updater (reg : PyDict) (obj : Option JVal) : Option JVal :=
  let xs := match obj with
            | some (.jarr l) => l
            | _ => []
  let ids := taskIds xs
  let newId := match listMax ids with
               | some m => m + 1
               | none => 1
  some (.jarr (xs ++ [.jobj (task_write_defaults (dset reg "id" (.jint newId)))]))

/-- _normalize_task_row (github_db.py:271-304): read-side defaults filled via
setdefault, with the list sanitation of the tags and reminders fields. -/
def normalize_task_row (r : PyDict) : PyDict :=
  let rr := r
  let rr := dsetdefault rr "title" (.jstr "")
  let rr := dsetdefault rr "description" (.jstr "")
  let rr := dsetdefault rr "assignee" (pyOrDefault ((dget rr "assignee").getD (.jstr "Ambos")) (.jstr "Ambos"))
  let rr := dsetdefault rr "status" (pyOrDefault ((dget rr "status").getD (.jstr "todo")) (.jstr "todo"))
  let rr := dsetdefault rr "type" (pyOrDefault ((dget rr "type").getD (.jstr "task")) (.jstr "task"))
  let rr := dsetdefault rr "due_at" ((dget rr "due_at").getD .jnull)
  let rr := dsetdefault rr "start_at" ((dget rr "start_at").getD .jnull)
  let rr := dsetdefault rr "end_at" ((dget rr "end_at").getD .jnull)
  let rr := dsetdefault rr "priority" (pyOrDefault ((dget rr "priority").getD (.jstr "normal")) (.jstr "normal"))
  let rr := dsetdefault rr "tags" (pyOrDefault ((dget rr "tags").getD (.jarr [])) (.jarr []))
  let rr := match dget rr "tags" with
            | some (.jarr _) => rr
            | _ => dset rr "tags" (.jarr [])
  let rr := dsetdefault rr "recurrence" ((dget rr "recurrence").getD .jnull)
  let rr := dsetdefault rr "context" ((dget rr "context").getD .jnull)
  let rr := dsetdefault rr "reminders" (pyOrDefault ((dget rr "reminders").getD (.jarr [])) (.jarr []))
  let rr := match dget rr "reminders" with
            | some (.jarr _) => rr
            | _ => dset rr "reminders" (.jarr [])
  let rr := dsetdefault rr "created_at" ((dget rr "created_at").getD .jnull)
  let rr := dsetdefault rr "updated_at" ((dget rr "updated_at").getD .jnull)
  dsetdefault rr "completed_at" ((dget rr "completed_at").getD .jnull)

/-- buscar_tasks (github_db.py:306-314): one fetch; a missing, falsy or
non-list document yields []; dict rows whose id key is present and not None
are normalized; other rows are dropped. -/
def buscar_tasks (s : Store) : List JVal :=
  match (fetchStore s).1 with
  | some (.jarr (x :: xs)) =>
      (x :: xs).filterMap (fun row =>
        match row with
        | .jobj r =>
            (match dget r "id" with
             | none => none
             | some .jnull => none
             | some _ => some (.jobj (normalize_task_row r)))
        | _ => none)
  | _ => []

/-!
Estudos topic transforms (the two updaters that read the clock).  The clock
value datetime.utcnow().isoformat() + "Z" is passed as the explicit argument
now; everything else is translated from the source unchanged.
-/

/-- Python (v or "").strip() : falsy values give "", truthy strings are
trimmed, truthy non-strings raise AttributeError (none). -/
def pyOrEmptyStrStripped (v : JVal) : Option String :=
  if pyFalsy v then some ""
  else match v with
       | .jstr s => some s.trim
       | _ => none

/-- Membership test in the allowed status set ("todo", "doing", "done"). -/
def topicStatusSet (s : String) : Bool :=
  s == "todo" || s == "doing" || s == "done"

/-- Weekday sanitation of the estudos topic code: a non-list becomes [], and
only elements converting to an int in 0..6 are kept. -/
def topicWeekdays (v : JVal) : List JVal :=
  let lst := match v with
             | .jarr l => l
             | _ => []
  lst.filterMap (fun x =>
    match pyToInt x with
    | some i => if 0 ≤ i ∧ i ≤ 6 then some (JVal.jint i) else none
    | none => none)

/-- Per-key patch application of atualizar_estudos_topic
(github_db.py:865-889): status is validated and trimmed, planned_weekdays
sanitized, order and subject_id coerced to int (ignored when int() raises),
review and active coerced to bool, every other key stored as given. -/
def topicPatchKey (r : PyDict) (k : String) (v : JVal) : Option PyDict :=
  if k = "status" then
    (match pyOrEmptyStrStripped v with
     | none => none
     | some vv => some (if topicStatusSet vv then dset r k (.jstr vv) else r))
  else if k = "planned_weekdays" then
    some (dset r k (.jarr (topicWeekdays v)))
  else if k = "order" ∨ k = "subject_id" then
    (match pyToInt v with
     | some n => some (dset r k (.jint n))
     | none => some r)
  else if k = "review" ∨ k = "active" then
    some (dset r k (.jbool (!pyFalsy v)))
  else
    some (dset r k v)

/-- Fold of topicPatchKey over the patch items in order. -/
def topicApplyPatch (patch : PyDict) (r : PyDict) : Option PyDict :=
  match patch with
  | [] => some r
  | (k, v) :: rest =>
      (match topicPatchKey r k v with
       | none => none
       | some r' => topicApplyPatch rest r')

/-- Per-row action of atualizar_estudos_topic: a matching dict row receives
the patch and then updated_at is set to the clock value. -/
def topicPatchRow (tid : Int) (patch : PyDict) (now : String) : JVal → Option JVal
  | .jobj r =>
      (match pyToInt ((dget r "id").getD (.jint (-1))) with
       | none => none
       | some n =>
           if n = tid then
             (topicApplyPatch patch r).map (fun r' => .jobj (dset r' "updated_at" (.jstr now)))
           else some (.jobj r))
  | v => some v

/-- Updater of atualizar_estudos_topic (github_db.py:858-895), with the clock
reading as explicit argument now. -/
def atualizar_estudos_topic_updater (tid : Int) (patch : PyDict) (now : String)
    (obj : Option JVal) : Option JVal :=
  match pyOrEmptyList obj with
  | .jarr xs => (mapRowsM (topicPatchRow tid patch now) xs).map .jarr
  | .jobj fs => some (.jobj fs)
  | .jstr s => some (.jstr s)
  | _ => none

/-- Records of the same subject, from the comprehension with
int(x.get("subject_id", -1)) in inserir_estudos_topic (github_db.py:812);
none models a raising int(). -/
def topicSameSubject (sid : Int) : List JVal → Option (List JVal)
  | [] => some []
  | .jobj r :: xs =>
      (match pyToInt ((dget r "subject_id").getD (.jint (-1))) with
       | none => none
       | some n =>
           (topicSameSubject sid xs).map (fun rest =>
             if n = sid then .jobj r :: rest else rest))
  | _ :: xs => topicSameSubject sid xs

/-- Orders of the same-subject records: int(x.get("order", 0) or 0); none
models a raising int(). -/
def topicOrders : List JVal → Option (List Int)
  | [] => some []
  | .jobj r :: xs =>
      (match pyToInt (pyOrIntZero (dget r "order")) with
       | some n => (topicOrders xs).map (n :: ·)
       | none => none)
  | _ :: xs => topicOrders xs

/-- Order computation of inserir_estudos_topic (github_db.py:810-817): the
try block computing default_order and order, with 9999 on any exception. -/
def topicDefaultOrder (sid : Int) (xs : List JVal) (regOrder : Option JVal) : Int :=
  match topicSameSubject sid xs with
  | none => 9999
  | some same =>
      let dflt : Option Int :=
        if same.isEmpty then some 1
        else match topicOrders same with
             | none => none
             | some os => (listMax os).map (· + 1)
      match dflt with
      | none => 9999
      | some d =>
          let v := match regOrder with
                   | none => .jint d
                   | some w => if pyFalsy w then .jint d else w
          match pyToInt v with
          | some o => o
          | none => 9999

/-- Fields of the new topic row (github_db.py:837-851) other than the two
timestamp fields, in the dict literal order of the source. -/
def topicRowBase (newId sid : Int) (title : String) (order : Int) (status : String)
    (planned_date : JVal) (wk : List JVal) (notes : JVal) (review active : Bool)
    (last : JVal) : PyDict :=
  [("id", .jint newId), ("subject_id", .jint sid), ("title", .jstr title),
   ("order", .jint order), ("status", .jstr status), ("planned_date", planned_date),
   ("planned_weekdays", .jarr wk), ("notes", notes), ("review", .jbool review),
   ("active", .jbool active), ("last_studied_at", last)]

/-- Clock-free part of the updater of inserir_estudos_topic
(github_db.py:794-856): the collection rows together with the fields of the
new row other than the two timestamps.  The failure order follows the source:
the id computation first, then subject_id, title and status validation. -/
def inserir_estudos_topic_core (reg : PyDict)
    (obj : Option JVal) : Option (List JVal × PyDict) :=
  match pyOrEmptyList obj with
  | .jarr xs =>
      let newId? : Option Int :=
        if xs.isEmpty then some 1
        else match transacaoIds xs with
             | none => none
             | some ids => (listMax ids).map (· + 1)
      (match newId? with
       | none => none
       | some newId =>
         match (match dget reg "subject_id" with
                | none => none
                | some v => pyToInt v) with
         | none => none
         | some sid =>
           match pyOrEmptyStrStripped ((dget reg "title").getD .jnull) with
           | none => none
           | some title =>
             if title = "" then none
             else
               let order := topicDefaultOrder sid xs (dget reg "order")
               match pyOrEmptyStrStripped (pyOrDefault ((dget reg "status").getD .jnull) (.jstr "todo")) with
               | none => none
               | some st0 =>
                 let status := if topicStatusSet st0 then st0 else "todo"
                 let planned_date := (dget reg "planned_date").getD .jnull
                 let pw := pyOrDefault ((dget reg "planned_weekdays").getD .jnull) (.jarr [])
                 let wk := topicWeekdays pw
                 let notes := pyOrDefault ((dget reg "notes").getD .jnull) (.jstr "")
                 let review := !pyFalsy ((dget reg "review").getD (.jbool false))
                 let active := match dget reg "active" with
                               | none => true
                               | some .jnull => true
                               | some v => !pyFalsy v
                 let last := (dget reg "last_studied_at").getD .jnull
                 some (xs, topicRowBase newId sid title order status planned_date wk
                             notes review active last))
  | _ => none

/-- Updater of inserir_estudos_topic (github_db.py:794-856), with the clock
reading as explicit argument now: the new row is the core row with the
created_at and updated_at fields carrying the clock value, appended to the
fetched rows. -/
def inserir_estudos_topic_updater (reg : PyDict) (now : String)
    (obj : Option JVal) : Option JVal :=
  (inserir_estudos_topic_core reg obj).map (fun p =>
    .jarr (p.1 ++ [.jobj (p.2 ++ [("created_at", .jstr now), ("updated_at", .jstr now)])]))

/-- Modelled from the spec: deletar_tasks_bulk is imported from github_db by
src/views/tarefas_view.py:12 and called at line 217, but its definition is
absent from the repository sources.  Per the spec, its transform filters out
every record whose id is in the given set, a missing document is treated as
the empty collection, and the whole operation is one safe_update_json call. -/
def deletar_tasks_bulk_updater (ids : List Int) (obj : Option JVal) : Option JVal :=
  let xs := match obj with
            | some (.jarr l) => l
            | _ => []
  some (.jarr (xs.filter (fun row =>
    match row with
    | .jobj r =>
        (match dget r "id" with
         | some (.jint n) => !ids.contains n
         | _ => true)
    | _ => true)))

/-- Modelled from the spec: the bulk delete operation itself, a single
safe_update_json call carrying the filtering transform. -/
def deletar_tasks_bulk (ids : List Int) (env : Env) (maxRetries : Nat) (s : Store) :
    Option (JVal × Nat) × Store × Nat :=
  safe_update_json (deletar_tasks_bulk_updater ids) env maxRetries s

/-!
Helper notions used only in the statements and proofs of the claims.
-/

/-- Well-formed collection view: every row is a dict carrying an integer id,
and ids lists those ids in row order. -/
inductive WellIds : List JVal → List Int → Prop where
  | nil : WellIds [] []
  | cons (r : PyDict) (n : Int) (xs : List JVal) (ids : List Int) :
      dget r "id" = some (.jint n) → WellIds xs ids →
      WellIds (.jobj r :: xs) (n :: ids)

/-- Total per-row description of the update-by-id transform, used to state
what atualizar_registro_updater does on well-formed collections. -/
def patchPure (tid : Int) (patch : PyDict) : JVal → JVal
  | .jobj r =>
      (match pyToInt ((dget r "id").getD (.jint (-1))) with
       | some n => if n = tid then .jobj (dupdate r patch) else .jobj r
       | none => .jobj r)
  | v => v

/-- Record view up to the two timestamp fields written from the clock. -/
def scrubRow (r : PyDict) : PyDict := dremove "created_at" (dremove "updated_at" r)

/-- Row view up to timestamps. -/
def scrubRowVal : JVal → JVal
  | .jobj r => .jobj (scrubRow r)
  | v => v

/-- Collection view up to the timestamp fields of its rows. -/
def scrubTimestamps : JVal → JVal
  | .jarr xs => .jarr (xs.map scrubRowVal)
  | v => v

/-!
Concrete scenarios instantiating the hypotheses of the claim theorems.
-/

/-- Caller fields of the first concurrent task writer. -/
def regTaskA : PyDict := [("title", .jstr "Task A")]

/-- Caller fields of the second concurrent task writer. -/
def regTaskB : PyDict := [("title", .jstr "Task B")]

/-- Task record as committed by inserir_task for a bare title. -/
def taskRow (t : String) (i : Int) : JVal :=
  .jobj [("title", .jstr t), ("id", .jint i), ("status", .jstr "todo"),
    ("assignee", .jstr "Ambos"), ("type", .jstr "task"),
    ("priority", .jstr "normal"), ("tags", .jarr []), ("recurrence", .jnull),
    ("reminders", .jarr [])]

/-- Environment in which a full concurrent insert of regTaskB commits between
the fetch and the put of attempt 0, and nothing else interferes. -/
def envConcurrent : Env :=
  ⟨fun _ s => s,
   fun i s =>
     if i = 0 then (safe_update_json (inserir_task_updater regTaskB) idEnv 15 s).2.1
     else s⟩

/-- Environment in which a concurrent writer commits [] between the fetch and
the put of every attempt, so every put of the caller conflicts. -/
def envClobber : Env :=
  ⟨fun _ s => s,
   fun _ s =>
     match s.doc with
     | some (_, v) => (gh_put_file s (.jarr []) (some v)).2
     | none => (gh_put_file s (.jarr []) none).2⟩


/-!
Basic lemmas about the dictionary operations.
-/

theorem dget_dset_self (d : PyDict) (k : String) (v : JVal) :
    dget (dset d k v) k = some v := by
  induction d with
  | nil => simp [dset, dget]
  | cons kv rest ih =>
      obtain ⟨k', v'⟩ := kv
      by_cases h : k' = k <;> simp [dset, dget, h, ih]

theorem dget_dset_ne (d : PyDict) (k k' : String) (v : JVal) (h : k' ≠ k) :
    dget (dset d k' v) k = dget d k := by
  induction d with
  | nil => simp [dset, dget, h]
  | cons kv rest ih =>
      obtain ⟨k1, v1⟩ := kv
      by_cases h1 : k1 = k' <;> by_cases h2 : k1 = k <;>
        simp_all [dset, dget]

theorem dget_dupdate_absent (patch : PyDict) (d : PyDict) (k : String)
    (h : dget patch k = none) :
    dget (dupdate d patch) k = dget d k := by
  induction patch generalizing d with
  | nil => simp [dupdate]
  | cons kv rest ih =>
      obtain ⟨k1, v1⟩ := kv
      by_cases hk : k1 = k
      · simp [dget, hk] at h
      · simp only [dget, if_neg hk] at h
        simp only [dupdate]
        rw [ih (dset d k1 v1) h, dget_dset_ne _ _ _ _ hk]

theorem dget_append_some (d e : PyDict) (k : String) (v : JVal)
    (h : dget d k = some v) :
    dget (d ++ e) k = some v := by
  induction d with
  | nil => simp [dget] at h
  | cons kv rest ih =>
      obtain ⟨k1, v1⟩ := kv
      by_cases hk : k1 = k <;> simp_all [dget]

theorem dget_dsetdefault_some (d : PyDict) (k k' : String) (v w : JVal)
    (h : dget d k = some v) :
    dget (dsetdefault d k' w) k = some v := by
  unfold dsetdefault
  cases hd : dget d k' with
  | some u => exact h
  | none => exact dget_append_some d [(k', w)] k v h

theorem task_write_defaults_dget_id (d : PyDict) (v : JVal)
    (h : dget d "id" = some v) :
    dget (task_write_defaults d) "id" = some v := by
  unfold task_write_defaults
  iterate 7 apply dget_dsetdefault_some
  exact h

/-!
Lemmas about listMax.
-/

theorem foldl_max_bounds (xs : List Int) :
    ∀ a : Int, a ≤ xs.foldl max a ∧ ∀ x ∈ xs, x ≤ xs.foldl max a := by
  induction xs with
  | nil => intro a; exact ⟨le_refl a, by simp⟩
  | cons y ys ih =>
      intro a
      obtain ⟨h1, h2⟩ := ih (max a y)
      refine ⟨le_trans (le_max_left a y) h1, ?_⟩
      intro x hx
      simp only [List.foldl_cons, List.mem_cons] at *
      rcases hx with rfl | hx
      · exact le_trans (le_max_right a x) h1
      · exact h2 x hx

theorem listMax_le (l : List Int) (m : Int) (h : listMax l = some m) :
    ∀ x ∈ l, x ≤ m := by
  cases l with
  | nil => simp [listMax] at h
  | cons y ys =>
      simp only [listMax, Option.some.injEq] at h
      subst h
      intro x hx
      simp only [List.mem_cons] at hx
      rcases hx with rfl | hx
      · exact (foldl_max_bounds ys x).1
      · exact (foldl_max_bounds ys y).2 x hx

theorem listMax_of_ne_nil (l : List Int) (h : l ≠ []) :
    ∃ m, listMax l = some m := by
  cases l with
  | nil => exact absurd rfl h
  | cons y ys => exact ⟨ys.foldl max y, rfl⟩

/-!
Lemmas about well-formed collections.
-/

theorem wellIds_transacaoIds (xs : List JVal) (ids : List Int)
    (h : WellIds xs ids) : transacaoIds xs = some ids := by
  induction h with
  | nil => rfl
  | cons r n xs ids hg hw ih =>
      simp [transacaoIds, hg, pyToInt, ih]

theorem wellIds_taskIds (xs : List JVal) (ids : List Int)
    (h : WellIds xs ids) : taskIds xs = ids := by
  induction h with
  | nil => rfl
  | cons r n xs ids hg hw ih =>
      by_cases hn : n = 0
      · subst hn
        simp [taskIds, hg, pyOrIntZero, pyFalsy, pyToInt, ih]
      · simp [taskIds, hg, pyOrIntZero, pyFalsy, pyToInt, hn, ih]

theorem wellIds_nil_iff (xs : List JVal) (ids : List Int)
    (h : WellIds xs ids) : xs = [] ↔ ids = [] := by
  cases h <;> simp

theorem wellIds_append_one (xs : List JVal) (ids : List Int) (r : PyDict)
    (k : Int) (h : WellIds xs ids) (hr : dget r "id" = some (.jint k)) :
    WellIds (xs ++ [.jobj r]) (ids ++ [k]) := by
  induction h with
  | nil => exact .cons r k [] [] hr .nil
  | cons r' n xs ids hg hw ih => exact .cons r' n _ _ hg ih

theorem wellIds_mapRows_patch (tid : Int) (patch : PyDict) (xs : List JVal)
    (ids : List Int) (h : WellIds xs ids) :
    mapRowsM (patchRow tid patch) xs = some (xs.map (patchPure tid patch)) := by
  induction h with
  | nil => rfl
  | cons r n xs ids hg hw ih =>
      simp only [mapRowsM, List.map_cons, patchRow, patchPure, hg, Option.getD_some,
        pyToInt, ih, Option.map_some']

theorem wellIds_patchPure (tid : Int) (patch : PyDict) (xs : List JVal)
    (ids : List Int) (h : WellIds xs ids) (hp : dget patch "id" = none) :
    WellIds (xs.map (patchPure tid patch)) ids := by
  induction h with
  | nil => exact .nil
  | cons r n xs ids hg hw ih =>
      simp only [List.map_cons, patchPure, hg, Option.getD_some, pyToInt]
      by_cases hn : n = tid
      · subst hn
        simp only [if_pos rfl]
        exact .cons _ n _ _ (by rw [dget_dupdate_absent patch r "id" hp, hg]) ih
      · simp only [if_neg hn]
        exact .cons _ n _ _ hg ih

theorem wellIds_noMatch (tid : Int) (patch : PyDict) (xs : List JVal)
    (ids : List Int) (h : WellIds xs ids) (hm : tid ∉ ids) :
    xs.map (patchPure tid patch) = xs := by
  induction h with
  | nil => rfl
  | cons r n xs ids hg hw ih =>
      simp only [List.mem_cons] at hm
      push_neg at hm
      simp only [List.map_cons, patchPure, hg, Option.getD_some, pyToInt,
        if_neg (fun he : n = tid => hm.1 he.symm), ih hm.2]

theorem wellIds_delete (tid : Int) (xs : List JVal) (ids : List Int)
    (h : WellIds xs ids) :
    ∃ ys, filterRowsM (delRow tid) xs = some ys
      ∧ WellIds ys (ids.filter (fun n => n != tid)) := by
  induction h with
  | nil => exact ⟨[], rfl, .nil⟩
  | cons r n xs ids hg hw ih =>
      obtain ⟨ys, hys, hwys⟩ := ih
      by_cases hn : n = tid
      · subst hn
        refine ⟨ys, ?_, ?_⟩
        · simp [filterRowsM, delRow, hg, pyToInt, hys]
        · simpa using hwys
      · refine ⟨.jobj r :: ys, ?_, ?_⟩
        · have hb : (n != tid) = true := by simpa using hn
          simp [filterRowsM, delRow, hg, pyToInt, hys, hb]
        · simpa [hn] using .cons r n ys _ hg hwys

/-!
Lemmas about the engine and the interference trace.
-/

theorem gh_put_file_none (s : Store) (obj : JVal) (sha : Option Nat)
    (h : (gh_put_file s obj sha).1 = none) :
    (gh_put_file s obj sha).2 = s := by
  unfold gh_put_file at *
  rcases hd : s.doc with _ | ⟨c, v⟩ <;> rcases hs : sha with _ | sh <;>
    simp [hd, hs] at h ⊢
  by_cases he : sh = v
  · simp [he] at h
  · simp [he]

theorem safe_update_go_all_conflicts
    (upd : Option JVal → Option JVal) (env : Env) :
    ∀ (fuel i w : Nat) (s : Store),
    (∀ j, j < fuel →
      upd (fetchStore (env.pre (i + j) (envTraceFrom env i j s))).1 ≠ none) →
    (∀ j, j < fuel → ∀ cand : JVal,
      upd (fetchStore (env.pre (i + j) (envTraceFrom env i j s))).1 = some cand →
      (gh_put_file (env.mid (i + j) (env.pre (i + j) (envTraceFrom env i j s))) cand
        (fetchStore (env.pre (i + j) (envTraceFrom env i j s))).2).1 = none) →
    safe_update_go upd env i fuel s w = (none, envTraceFrom env i fuel s, w + fuel) := by
  intro fuel
  induction fuel with
  | zero => intro i w s _ _; simp [safe_update_go, envTraceFrom]
  | succ fuel ih =>
      intro i w s hupd hput
      have h0 : envTraceFrom env i 0 s = s := rfl
      have hu0 := hupd 0 (Nat.succ_pos fuel)
      rw [Nat.add_zero, h0] at hu0
      cases hc : upd (fetchStore (env.pre i s)).1 with
      | none => exact absurd hc hu0
      | some cand =>
          have hp0 := hput 0 (Nat.succ_pos fuel) cand (by rw [Nat.add_zero, h0]; exact hc)
          rw [Nat.add_zero, h0] at hp0
          have hstore := gh_put_file_none _ _ _ hp0
          simp only [safe_update_go, hc]
          rcases hgp : gh_put_file (env.mid i (env.pre i s)) cand
              (fetchStore (env.pre i s)).2 with ⟨res, s3⟩
          rw [hgp] at hp0 hstore
          simp only at hp0 hstore
          subst hp0
          subst hstore
          have step : envTraceFrom env i (fuel + 1) s
              = envTraceFrom env (i + 1) fuel (envStep env i s) := rfl
          rw [step]
          have hshift : ∀ j, envTraceFrom env (i + 1) j (envStep env i s)
              = envTraceFrom env i (j + 1) s := fun j => rfl
          have := ih (i + 1) (w + 1) (envStep env i s)
            (fun j hj => by
              rw [hshift j]
              have := hupd (j + 1) (Nat.succ_lt_succ hj)
              rwa [show i + 1 + j = i + (j + 1) by omega])
            (fun j hj cand hc2 => by
              rw [hshift j] at hc2 ⊢
              have := hput (j + 1) (Nat.succ_lt_succ hj) cand
                (by rwa [show i + (j + 1) = i + 1 + j by omega])
              rwa [show i + (j + 1) = i + 1 + j by omega] at this)
          show safe_update_go upd env (i + 1) fuel (envStep env i s) (w + 1)
              = (none, envTraceFrom env (i + 1) fuel (envStep env i s), w + (fuel + 1))
          rw [this]
          have harith : w + 1 + fuel = w + (fuel + 1) := by omega
          rw [harith]

/-!
Lemmas about record views up to timestamp fields.
-/

theorem dremove_append (k : String) (d e : PyDict) :
    dremove k (d ++ e) = dremove k d ++ dremove k e := by
  induction d with
  | nil => simp [dremove]
  | cons kv rest ih =>
      obtain ⟨k', v⟩ := kv
      by_cases h : k' = k <;> simp [dremove, h, ih]

theorem dremove_dset_self (k : String) (d : PyDict) (v : JVal) :
    dremove k (dset d k v) = dremove k d := by
  induction d with
  | nil => simp [dset, dremove]
  | cons kv rest ih =>
      obtain ⟨k', v'⟩ := kv
      by_cases h : k' = k <;> simp [dset, dremove, h, ih]

theorem scrubRow_set_updated_at (r : PyDict) (v : JVal) :
    scrubRow (dset r "updated_at" v) = scrubRow r := by
  unfold scrubRow
  rw [dremove_dset_self]

theorem scrubRow_timestamps (base : PyDict) (v w : JVal) :
    scrubRow (base ++ [("created_at", v), ("updated_at", w)]) = scrubRow base := by
  unfold scrubRow
  rw [dremove_append]
  have h1 : dremove "updated_at" [(("created_at" : String), v), ("updated_at", w)]
      = [("created_at", v)] := by simp [dremove]
  rw [h1, dremove_append]
  have h2 : dremove "created_at" [(("created_at" : String), v)] = [] := by simp [dremove]
  rw [h2, List.append_nil]

theorem topicPatchRow_scrub (tid : Int) (patch : PyDict) (now1 now2 : String)
    (v : JVal) :
    Option.map scrubRowVal (topicPatchRow tid patch now1 v)
      = Option.map scrubRowVal (topicPatchRow tid patch now2 v) := by
  cases v with
  | jobj r =>
      simp only [topicPatchRow]
      cases pyToInt ((dget r "id").getD (.jint (-1))) with
      | none => rfl
      | some n =>
          by_cases hn : n = tid
          · simp only [if_pos hn]
            cases topicApplyPatch patch r with
            | none => rfl
            | some r' =>
                simp only [Option.map_some', scrubRowVal]
                rw [scrubRow_set_updated_at, scrubRow_set_updated_at]
          · simp [if_neg hn]
  | jnull => rfl
  | jbool b => rfl
  | jint n => rfl
  | jstr s => rfl
  | jarr xs => rfl

theorem mapRowsM_scrub (f1 f2 : JVal → Option JVal)
    (h : ∀ v, Option.map scrubRowVal (f1 v) = Option.map scrubRowVal (f2 v)) :
    ∀ xs, Option.map (List.map scrubRowVal) (mapRowsM f1 xs)
      = Option.map (List.map scrubRowVal) (mapRowsM f2 xs) := by
  intro xs
  induction xs with
  | nil => rfl
  | cons x rest ih =>
      have hx := h x
      simp only [mapRowsM]
      cases h1 : f1 x with
      | none =>
          rw [h1] at hx
          cases h2 : f2 x with
          | none => rfl
          | some y2 => rw [h2] at hx; simp at hx
      | some y1 =>
          rw [h1] at hx
          cases h2 : f2 x with
          | none => rw [h2] at hx; simp at hx
          | some y2 =>
              rw [h2] at hx
              simp only [Option.map_some', Option.some.injEq] at hx
              cases hr1 : mapRowsM f1 rest with
              | none =>
                  rw [hr1] at ih
                  cases hr2 : mapRowsM f2 rest with
                  | none => rfl
                  | some ys2 => rw [hr2] at ih; simp at ih
              | some ys1 =>
                  rw [hr1] at ih
                  cases hr2 : mapRowsM f2 rest with
                  | none => rw [hr2] at ih; simp at ih
                  | some ys2 =>
                      rw [hr2] at ih
                      simp only [Option.map_some', Option.some.injEq] at ih ⊢
                      simp [List.map_cons, hx, ih]

/-- Claim C8 (corrected), counterexample: the transform of
atualizar_estudos_topic is not a function of the fetched content alone; with
the same fetched collection and an empty patch, two invocations at different
clock readings produce different candidate values, differing in the
updated_at field written from the clock. -/
theorem estudos_topic_transform_time_dependent :
    atualizar_estudos_topic_updater 1 [] "2025-01-01T00:00:00Z"
        (some (.jarr [.jobj [("id", .jint 1)]]))
      = some (.jarr [.jobj [("id", .jint 1), ("updated_at", .jstr "2025-01-01T00:00:00Z")]])
    ∧ atualizar_estudos_topic_updater 1 [] "2025-01-02T00:00:00Z"
        (some (.jarr [.jobj [("id", .jint 1)]]))
      = some (.jarr [.jobj [("id", .jint 1), ("updated_at", .jstr "2025-01-02T00:00:00Z")]])
    ∧ atualizar_estudos_topic_updater 1 [] "2025-01-01T00:00:00Z"
        (some (.jarr [.jobj [("id", .jint 1)]]))
      ≠ atualizar_estudos_topic_updater 1 [] "2025-01-02T00:00:00Z"
        (some (.jarr [.jobj [("id", .jint 1)]])) := by
  refine ⟨rfl, rfl, ?_⟩
  intro h
  simp only [show atualizar_estudos_topic_updater 1 [] "2025-01-01T00:00:00Z"
        (some (.jarr [.jobj [("id", .jint 1)]]))
      = some (.jarr [.jobj [("id", .jint 1), ("updated_at", .jstr "2025-01-01T00:00:00Z")]])
    from rfl,
    show atualizar_estudos_topic_updater 1 [] "2025-01-02T00:00:00Z"
        (some (.jarr [.jobj [("id", .jint 1)]]))
      = some (.jarr [.jobj [("id", .jint 1), ("updated_at", .jstr "2025-01-02T00:00:00Z")]])
    from rfl] at h
  simp at h

/-- Claim C8 (amended): every modelled transform is a deterministic pure
function of the fetched content and, for the two estudos-topic transforms,
the clock reading; re-invocation at a different clock reading changes at most
the created_at and updated_at fields of the affected row. -/
theorem estudos_transforms_pure_up_to_timestamps
    (tid : Int) (patch reg : PyDict) (now1 now2 : String) (obj : Option JVal) :
    Option.map scrubTimestamps (atualizar_estudos_topic_updater tid patch now1 obj)
      = Option.map scrubTimestamps (atualizar_estudos_topic_updater tid patch now2 obj)
    ∧ Option.map scrubTimestamps (inserir_estudos_topic_updater reg now1 obj)
      = Option.map scrubTimestamps (inserir_estudos_topic_updater reg now2 obj) := by
  constructor
  · unfold atualizar_estudos_topic_updater
    cases pyOrEmptyList obj with
    | jarr xs =>
        have key := mapRowsM_scrub _ _ (topicPatchRow_scrub tid patch now1 now2) xs
        calc Option.map scrubTimestamps
              ((mapRowsM (topicPatchRow tid patch now1) xs).map JVal.jarr)
            = Option.map JVal.jarr
                (Option.map (List.map scrubRowVal) (mapRowsM (topicPatchRow tid patch now1) xs)) := by
              cases mapRowsM (topicPatchRow tid patch now1) xs <;> rfl
          _ = Option.map JVal.jarr
                (Option.map (List.map scrubRowVal) (mapRowsM (topicPatchRow tid patch now2) xs)) := by
              rw [key]
          _ = Option.map scrubTimestamps
                ((mapRowsM (topicPatchRow tid patch now2) xs).map JVal.jarr) := by
              cases mapRowsM (topicPatchRow tid patch now2) xs <;> rfl
    | jnull => rfl
    | jbool b => rfl
    | jint n => rfl
    | jstr s => rfl
    | jobj fs => rfl
  · unfold inserir_estudos_topic_updater
    cases hc : inserir_estudos_topic_core reg obj with
    | none => rfl
    | some p =>
        obtain ⟨xs, base⟩ := p
        simp only [Option.map_some', Option.some.injEq]
        simp only [scrubTimestamps, List.map_append, List.map_cons, List.map_nil, scrubRowVal]
        rw [scrubRow_timestamps, scrubRow_timestamps]

/-- Claim C6 (corrected), counterexample: a network failure on read returns
the same (None, None) pair as a missing path, so the return value does not
distinguish a transport failure from a missing document. -/
theorem get_file_transport_failure_indistinct :
    (gh_get_file .netFailure).1 = (none, none)
    ∧ (gh_get_file .notFound).1 = (none, none)
    ∧ GetResponse.netFailure ≠ GetResponse.notFound := by
  refine ⟨rfl, rfl, ?_⟩
  intro h
  exact GetResponse.noConfusion h

/-- Claim C6 (amended): gh_get_file returns (None, None) on a 404 and on
every failure alike (network failure, undecodable 200 body, any other HTTP
status); the only signal separating a non-404 failure from a missing path is
the error-message side channel, which fires exactly on the failures. -/
theorem get_file_none_none_characterization :
    (∀ resp : GetResponse,
      (gh_get_file resp).1 = (none, none) ↔ ∀ obj sha, resp ≠ .ok (some obj) sha)
    ∧ (∀ resp : GetResponse,
      (gh_get_file resp).2 = true
        ↔ (resp ≠ .notFound ∧ ∀ obj sha, resp ≠ .ok (some obj) sha)) := by
  constructor
  · intro resp
    cases resp with
    | netFailure => simp [gh_get_file]
    | ok decoded sha => cases decoded <;> simp [gh_get_file]
    | notFound => simp [gh_get_file]
    | httpError code => simp [gh_get_file]
  · intro resp
    cases resp with
    | netFailure => simp [gh_get_file]
    | ok decoded sha => cases decoded <;> simp [gh_get_file]
    | notFound => simp [gh_get_file]
    | httpError code => simp [gh_get_file]

/-!
Shared characterizations of the insert transforms on well-formed collections.
-/

theorem inserir_transacao_eq (reg : PyDict) (xs : List JVal) (ids : List Int)
    (h : WellIds xs ids) :
    inserir_transacao_updater reg (some (.jarr xs))
      = some (.jarr (xs ++ [.jobj (dset reg "id" (.jint ((listMax ids).getD 0 + 1)))])) := by
  cases h with
  | nil => rfl
  | cons r n xs' ids' hg hw =>
      have hti : transacaoIds (JVal.jobj r :: xs') = some (n :: ids') :=
        wellIds_transacaoIds _ _ (.cons r n xs' ids' hg hw)
      simp [inserir_transacao_updater, pyOrEmptyList, pyFalsy, hti, listMax]

theorem inserir_task_eq (reg : PyDict) (xs : List JVal) (ids : List Int)
    (h : WellIds xs ids) :
    inserir_task_updater reg (some (.jarr xs))
      = some (.jarr (xs ++ [.jobj (task_write_defaults
          (dset reg "id" (.jint ((listMax ids).getD 0 + 1))))])) := by
  have htk : taskIds xs = ids := wellIds_taskIds _ _ h
  cases hids : ids with
  | nil =>
      subst hids
      simp [inserir_task_updater, htk, listMax]
  | cons n ids' =>
      subst hids
      simp [inserir_task_updater, htk, listMax]

theorem newId_gt (ids : List Int) : ∀ n ∈ ids, n < (listMax ids).getD 0 + 1 := by
  intro n hn
  have hne : ids ≠ [] := by
    intro he
    subst he
    simp at hn
  obtain ⟨m, hm⟩ := listMax_of_ne_nil ids hne
  rw [hm]
  exact Int.lt_add_one_iff.mpr (listMax_le ids m hm n hn)

theorem newId_not_mem (ids : List Int) : ((listMax ids).getD 0 + 1) ∉ ids :=
  fun hmem => absurd (newId_gt ids _ hmem) (lt_irrefl _)

/-- Claim C2 (confirmed): on a well-formed collection both insert transforms
assign max(existing ids, default 0) + 1 as the new id, append the caller
fields carrying that id (the task variant additionally filling write-time
defaults for absent fields), the new id is strictly greater than every
existing id and hence unique, and an insert into an empty or missing
collection assigns id 1. -/
theorem insert_assigns_max_plus_one
    (reg : PyDict) (xs : List JVal) (ids : List Int) (h : WellIds xs ids) :
    inserir_transacao_updater reg (some (.jarr xs))
      = some (.jarr (xs ++ [.jobj (dset reg "id" (.jint ((listMax ids).getD 0 + 1)))]))
    ∧ inserir_task_updater reg (some (.jarr xs))
      = some (.jarr (xs ++ [.jobj (task_write_defaults
          (dset reg "id" (.jint ((listMax ids).getD 0 + 1))))]))
    ∧ (∀ n ∈ ids, n < (listMax ids).getD 0 + 1)
    ∧ ((listMax ids).getD 0 + 1) ∉ ids
    ∧ WellIds (xs ++ [.jobj (dset reg "id" (.jint ((listMax ids).getD 0 + 1)))])
        (ids ++ [(listMax ids).getD 0 + 1])
    ∧ (xs = [] → (listMax ids).getD 0 + 1 = 1)
    ∧ inserir_transacao_updater reg none = some (.jarr [.jobj (dset reg "id" (.jint 1))])
    ∧ inserir_task_updater reg none
        = some (.jarr [.jobj (task_write_defaults (dset reg "id" (.jint 1)))]) := by
  refine ⟨inserir_transacao_eq reg xs ids h, inserir_task_eq reg xs ids h,
    newId_gt ids, newId_not_mem ids, ?_, ?_, rfl, rfl⟩
  · exact wellIds_append_one xs ids _ _ h (dget_dset_self reg "id" _)
  · intro he
    subst he
    have : ids = [] := (wellIds_nil_iff [] ids h).mp rfl
    subst this
    rfl

/-- Claim C4 (corrected), counterexample: an update-by-id whose patch itself
contains an id key rewrites the id of the matched record and can duplicate an
existing id, so the repository does not preserve id uniqueness for every
caller input. -/
theorem update_patch_with_id_key_duplicates_ids :
    atualizar_registro_updater 1 [("id", .jint 2)]
        (some (.jarr [.jobj [("id", .jint 1)], .jobj [("id", .jint 2)]]))
      = some (.jarr [.jobj [("id", .jint 2)], .jobj [("id", .jint 2)]])
    ∧ WellIds [.jobj [("id", .jint 2)], .jobj [("id", .jint 2)]] [2, 2]
    ∧ ¬ ([2, 2] : List Int).Nodup := by
  refine ⟨rfl, ?_, by decide⟩
  exact .cons _ 2 _ _ rfl (.cons _ 2 _ _ rfl .nil)

/-- Claim C4 (amended): on a well-formed collection with pairwise-distinct
ids, insert and delete-by-id preserve distinctness for every caller input,
and update-by-id preserves it whenever the patch does not contain an id key
(the counterexample shows an id-carrying patch can break it). -/
theorem crud_preserves_distinct_ids_without_id_patch
    (reg patch : PyDict) (tid : Int) (xs : List JVal) (ids : List Int)
    (h : WellIds xs ids) (hnd : ids.Nodup) (hpatch : dget patch "id" = none) :
    (∃ ys idsY, inserir_transacao_updater reg (some (.jarr xs)) = some (.jarr ys)
      ∧ WellIds ys idsY ∧ idsY.Nodup)
    ∧ (∃ ys, atualizar_registro_updater tid patch (some (.jarr xs)) = some (.jarr ys)
      ∧ WellIds ys ids)
    ∧ (∃ ys idsY, deletar_registro_updater tid (some (.jarr xs)) = some (.jarr ys)
      ∧ WellIds ys idsY ∧ idsY.Nodup) := by
  refine ⟨?_, ?_, ?_⟩
  · refine ⟨_, ids ++ [(listMax ids).getD 0 + 1], inserir_transacao_eq reg xs ids h, ?_, ?_⟩
    · exact wellIds_append_one xs ids _ _ h (dget_dset_self reg "id" _)
    · rw [List.nodup_append]
      refine ⟨hnd, List.nodup_singleton _, ?_⟩
      intro a ha hb
      simp only [List.mem_singleton] at hb
      subst hb
      exact newId_not_mem ids ha
  · refine ⟨_, ?_, wellIds_patchPure tid patch xs ids h hpatch⟩
    have hm := wellIds_mapRows_patch tid patch xs ids h
    cases h with
    | nil => rfl
    | cons r n xs' ids' hg hw =>
        simp [atualizar_registro_updater, pyOrEmptyList, pyFalsy, hm]
  · obtain ⟨ys, hys, hwys⟩ := wellIds_delete tid xs ids h
    refine ⟨ys, _, ?_, hwys, hnd.filter _⟩
    cases h with
    | nil =>
        have hy : ys = [] := by
          simpa [filterRowsM] using hys.symm
        subst hy
        rfl
    | cons r n xs' ids' hg hw =>
        simp [deletar_registro_updater, pyOrEmptyList, pyFalsy, hys]

/-- Claim C5 (confirmed): on a well-formed collection, update-by-id maps each
row independently, shallow-merging the patch into every row whose id equals
the given id and leaving every other row untouched; when no row matches, the
array (content and count) is returned unchanged. -/
theorem update_by_id_merges_and_preserves_others
    (tid : Int) (patch : PyDict) (xs : List JVal) (ids : List Int)
    (h : WellIds xs ids) :
    atualizar_registro_updater tid patch (some (.jarr xs))
      = some (.jarr (xs.map (patchPure tid patch)))
    ∧ (xs.map (patchPure tid patch)).length = xs.length
    ∧ (∀ r : PyDict, dget r "id" = some (.jint tid) →
        patchPure tid patch (.jobj r) = .jobj (dupdate r patch))
    ∧ (∀ (r : PyDict) (n : Int), dget r "id" = some (.jint n) → n ≠ tid →
        patchPure tid patch (.jobj r) = .jobj r)
    ∧ (tid ∉ ids →
        atualizar_registro_updater tid patch (some (.jarr xs)) = some (.jarr xs)) := by
  have hmain : atualizar_registro_updater tid patch (some (.jarr xs))
      = some (.jarr (xs.map (patchPure tid patch))) := by
    have hm := wellIds_mapRows_patch tid patch xs ids h
    cases h with
    | nil => rfl
    | cons r n xs' ids' hg hw =>
        simp [atualizar_registro_updater, pyOrEmptyList, pyFalsy, hm]
  refine ⟨hmain, List.length_map _ _, ?_, ?_, ?_⟩
  · intro r hr
    simp [patchPure, hr, pyToInt]
  · intro r n hr hn
    simp [patchPure, hr, pyToInt, hn]
  · intro hnm
    rw [hmain, wellIds_noMatch tid patch xs ids h hnm]

/-- Claim C3 (confirmed): when the updater succeeds on every attempt but
every one of the maxRetries put calls fails (each attempt conflicting with
interference committed between its fetch and its put), safe_update_json
returns the failure pair (None, None is modelled by the none result) after
exactly maxRetries writes, and the final remote document is exactly the one
produced by the interfering writers alone: this caller changed nothing. -/
theorem exhausted_retries_leave_document_to_others
    (upd : Option JVal → Option JVal) (env : Env) (mr : Nat) (s : Store)
    (hupd : ∀ j, j < mr →
      upd (fetchStore (env.pre j (envTraceFrom env 0 j s))).1 ≠ none)
    (hput : ∀ j, j < mr → ∀ cand : JVal,
      upd (fetchStore (env.pre j (envTraceFrom env 0 j s))).1 = some cand →
      (gh_put_file (env.mid j (env.pre j (envTraceFrom env 0 j s))) cand
        (fetchStore (env.pre j (envTraceFrom env 0 j s))).2).1 = none) :
    safe_update_json upd env mr s = (none, envTraceFrom env 0 mr s, mr) := by
  have key := safe_update_go_all_conflicts upd env mr 0 0 s
    (fun j hj => by simpa using hupd j hj)
    (fun j hj cand hc => by
      have := hput j hj cand (by simpa using hc)
      simpa using this)
  simpa [safe_update_json] using key

/-- Claim C1 (confirmed): if the first attempt's write fails (its version
stale) and the second attempt's write succeeds, the committed content is the
transform applied to the content fetched during the second attempt. -/
theorem cas_retry_commits_second_fetch_transform
    (upd : Option JVal → Option JVal) (env : Env) (mr : Nat) (s s3 s5 : Store)
    (c0 c1 : Option JVal) (sha0 sha1 : Option Nat) (cand0 cand1 : JVal) (v : Nat)
    (hmr : 2 ≤ mr)
    (hf0 : fetchStore (env.pre 0 s) = (c0, sha0))
    (hu0 : upd c0 = some cand0)
    (hp0 : gh_put_file (env.mid 0 (env.pre 0 s)) cand0 sha0 = (none, s3))
    (hf1 : fetchStore (env.pre 1 s3) = (c1, sha1))
    (hu1 : upd c1 = some cand1)
    (hp1 : gh_put_file (env.mid 1 (env.pre 1 s3)) cand1 sha1 = (some v, s5)) :
    safe_update_json upd env mr s = (some (cand1, v), s5, 2) := by
  obtain ⟨k, rfl⟩ : ∃ k, mr = k + 2 := ⟨mr - 2, by omega⟩
  show safe_update_go upd env 0 (k + 1 + 1) s 0 = _
  simp only [safe_update_go, hf0, hu0, hp0, Nat.zero_add, hf1, hu1, hp1]

/-- Claim C10 (confirmed): the engine writes on every attempt even when the
transform returns the fetched content unchanged, so a no-op update-by-id
still issues one remote write and bumps the version token; and on a missing
path the same no-op operation creates the document with content [] and a
fresh version token. -/
theorem engine_writes_on_noop_and_creates_missing
    (tid : Int) (patch : PyDict) (mr : Nat) (c : JVal) (v ctr n : Nat)
    (hmr : 1 ≤ mr)
    (hnoop : atualizar_registro_updater tid patch (some c) = some c)
    (hv : v < ctr) :
    safe_update_json (atualizar_registro_updater tid patch) idEnv mr ⟨some (c, v), ctr⟩
      = (some (c, ctr), ⟨some (c, ctr), ctr + 1⟩, 1)
    ∧ ctr ≠ v
    ∧ safe_update_json (atualizar_registro_updater tid patch) idEnv mr ⟨none, n⟩
      = (some (.jarr [], n), ⟨some (.jarr [], n), n + 1⟩, 1) := by
  obtain ⟨k, rfl⟩ : ∃ k, mr = k + 1 := ⟨mr - 1, by omega⟩
  refine ⟨?_, by omega, ?_⟩
  · show safe_update_go _ idEnv 0 (k + 1) _ 0 = _
    simp [safe_update_go, idEnv, fetchStore, storeResponse, gh_get_file, hnoop,
      gh_put_file]
  · show safe_update_go _ idEnv 0 (k + 1) _ 0 = _
    simp [safe_update_go, idEnv, fetchStore, storeResponse, gh_get_file,
      gh_put_file, atualizar_registro_updater, pyOrEmptyList, mapRowsM]

/-- Claim C7 (confirmed, spec-modelled): for any id set and any store state,
an uncontended bulk delete issues exactly one write call (one CAS
transaction) regardless of how many ids are supplied, and it succeeds with
the filtered content at a fresh version. -/
theorem bulk_delete_single_write (ids : List Int) (mr : Nat) (s : Store)
    (hmr : 1 ≤ mr) :
    (deletar_tasks_bulk ids idEnv mr s).2.2 = 1
    ∧ ∃ out, (deletar_tasks_bulk ids idEnv mr s).1 = some (out, s.ctr) := by
  obtain ⟨k, rfl⟩ : ∃ k, mr = k + 1 := ⟨mr - 1, by omega⟩
  rcases s with ⟨doc, ctr⟩
  rcases doc with _ | ⟨c, v⟩
  · constructor
    · rfl
    · exact ⟨.jarr [], rfl⟩
  · obtain ⟨cand, hcand⟩ : ∃ cand, deletar_tasks_bulk_updater ids (some c) = some cand :=
      ⟨_, rfl⟩
    constructor
    · show (safe_update_go _ idEnv 0 (k + 1) _ 0).2.2 = 1
      simp [safe_update_go, idEnv, fetchStore, storeResponse, gh_get_file,
        gh_put_file, hcand]
    · refine ⟨cand, ?_⟩
      show (safe_update_go _ idEnv 0 (k + 1) _ 0).1 = some (cand, ctr)
      simp [safe_update_go, idEnv, fetchStore, storeResponse, gh_get_file,
        gh_put_file, hcand]

/-- Claim C9 (confirmed): inserting the single field title = Buy milk into an
empty tasks collection through the engine and then listing via buscar_tasks
returns exactly one record, with id 1, the given title, and every remaining
field filled with the declared defaults. -/
theorem tasks_insert_list_roundtrip :
    buscar_tasks (safe_update_json
        (inserir_task_updater [("title", .jstr "Buy milk")]) idEnv 15 ⟨none, 0⟩).2.1
      = [.jobj [("title", .jstr "Buy milk"), ("id", .jint 1),
          ("status", .jstr "todo"), ("assignee", .jstr "Ambos"),
          ("type", .jstr "task"), ("priority", .jstr "normal"),
          ("tags", .jarr []), ("recurrence", .jnull), ("reminders", .jarr []),
          ("description", .jstr ""), ("due_at", .jnull), ("start_at", .jnull),
          ("end_at", .jnull), ("context", .jnull), ("created_at", .jnull),
          ("updated_at", .jnull), ("completed_at", .jnull)]] := rfl

theorem cas_retry_commits_second_fetch_transform_witness :
    2 ≤ 15
    ∧ fetchStore (envConcurrent.pre 0 ⟨none, 0⟩) = (none, none)
    ∧ inserir_task_updater regTaskA none = some (.jarr [taskRow "Task A" 1])
    ∧ gh_put_file (envConcurrent.mid 0 (envConcurrent.pre 0 ⟨none, 0⟩))
        (.jarr [taskRow "Task A" 1]) none
        = (none, ⟨some (.jarr [taskRow "Task B" 1], 0), 1⟩)
    ∧ fetchStore (envConcurrent.pre 1 ⟨some (.jarr [taskRow "Task B" 1], 0), 1⟩)
        = (some (.jarr [taskRow "Task B" 1]), some 0)
    ∧ inserir_task_updater regTaskA (some (.jarr [taskRow "Task B" 1]))
        = some (.jarr [taskRow "Task B" 1, taskRow "Task A" 2])
    ∧ gh_put_file
        (envConcurrent.mid 1 (envConcurrent.pre 1 ⟨some (.jarr [taskRow "Task B" 1], 0), 1⟩))
        (.jarr [taskRow "Task B" 1, taskRow "Task A" 2]) (some 0)
        = (some 1, ⟨some (.jarr [taskRow "Task B" 1, taskRow "Task A" 2], 1), 2⟩)
    ∧ safe_update_json (inserir_task_updater regTaskA) envConcurrent 15 ⟨none, 0⟩
        = (some (.jarr [taskRow "Task B" 1, taskRow "Task A" 2], 1),
           ⟨some (.jarr [taskRow "Task B" 1, taskRow "Task A" 2], 1), 2⟩, 2)
    ∧ WellIds [taskRow "Task B" 1, taskRow "Task A" 2] [1, 2]
    ∧ ([1, 2] : List Int).Nodup := by
  refine ⟨by norm_num, rfl, rfl, rfl, rfl, rfl, rfl, ?_, ?_, by decide⟩
  · exact cas_retry_commits_second_fetch_transform (inserir_task_updater regTaskA)
      envConcurrent 15 ⟨none, 0⟩ ⟨some (.jarr [taskRow "Task B" 1], 0), 1⟩
      ⟨some (.jarr [taskRow "Task B" 1, taskRow "Task A" 2], 1), 2⟩
      none (some (.jarr [taskRow "Task B" 1])) none (some 0)
      (.jarr [taskRow "Task A" 1]) (.jarr [taskRow "Task B" 1, taskRow "Task A" 2]) 1
      (by norm_num) rfl rfl rfl rfl rfl rfl
  · exact .cons _ 1 _ _ rfl (.cons _ 2 _ _ rfl .nil)

theorem exhausted_retries_leave_document_to_others_witness :
    (∀ j, j < 2 →
      atualizar_registro_updater 1 []
        (fetchStore (envClobber.pre j (envTraceFrom envClobber 0 j ⟨some (.jarr [], 0), 1⟩))).1
        ≠ none)
    ∧ (∀ j, j < 2 → ∀ cand : JVal,
      atualizar_registro_updater 1 []
        (fetchStore (envClobber.pre j (envTraceFrom envClobber 0 j ⟨some (.jarr [], 0), 1⟩))).1
        = some cand →
      (gh_put_file
        (envClobber.mid j (envClobber.pre j (envTraceFrom envClobber 0 j ⟨some (.jarr [], 0), 1⟩)))
        cand
        (fetchStore (envClobber.pre j (envTraceFrom envClobber 0 j ⟨some (.jarr [], 0), 1⟩))).2).1
        = none)
    ∧ safe_update_json (atualizar_registro_updater 1 []) envClobber 2 ⟨some (.jarr [], 0), 1⟩
        = (none, envTraceFrom envClobber 0 2 ⟨some (.jarr [], 0), 1⟩, 2)
    ∧ envTraceFrom envClobber 0 2 ⟨some (.jarr [], 0), 1⟩ = ⟨some (.jarr [], 2), 3⟩ := by
  have h1 : ∀ j, j < 2 →
      atualizar_registro_updater 1 []
        (fetchStore (envClobber.pre j (envTraceFrom envClobber 0 j ⟨some (.jarr [], 0), 1⟩))).1
        ≠ none := by
    intro j hj
    interval_cases j
    · exact fun hcon => Option.noConfusion hcon
    · exact fun hcon => Option.noConfusion hcon
  have h2 : ∀ j, j < 2 → ∀ cand : JVal,
      atualizar_registro_updater 1 []
        (fetchStore (envClobber.pre j (envTraceFrom envClobber 0 j ⟨some (.jarr [], 0), 1⟩))).1
        = some cand →
      (gh_put_file
        (envClobber.mid j (envClobber.pre j (envTraceFrom envClobber 0 j ⟨some (.jarr [], 0), 1⟩)))
        cand
        (fetchStore (envClobber.pre j (envTraceFrom envClobber 0 j ⟨some (.jarr [], 0), 1⟩))).2).1
        = none := by
    intro j hj cand hc
    interval_cases j
    · obtain rfl : (JVal.jarr [] : JVal) = cand := Option.some.inj hc
      rfl
    · obtain rfl : (JVal.jarr [] : JVal) = cand := Option.some.inj hc
      rfl
  exact ⟨h1, h2,
    exhausted_retries_leave_document_to_others (atualizar_registro_updater 1 [])
      envClobber 2 ⟨some (.jarr [], 0), 1⟩ h1 h2, rfl⟩

theorem insert_assigns_max_plus_one_witness :
    WellIds [.jobj [("id", .jint 4), ("descricao", .jstr "mercado")]] [4]
    ∧ (inserir_transacao_updater [("descricao", .jstr "padaria")]
        (some (.jarr [.jobj [("id", .jint 4), ("descricao", .jstr "mercado")]]))
      = some (.jarr ([.jobj [("id", .jint 4), ("descricao", .jstr "mercado")]]
          ++ [.jobj (dset [("descricao", .jstr "padaria")] "id"
                (.jint ((listMax [4]).getD 0 + 1)))]))
    ∧ inserir_task_updater [("descricao", .jstr "padaria")]
        (some (.jarr [.jobj [("id", .jint 4), ("descricao", .jstr "mercado")]]))
      = some (.jarr ([.jobj [("id", .jint 4), ("descricao", .jstr "mercado")]]
          ++ [.jobj (task_write_defaults (dset [("descricao", .jstr "padaria")] "id"
                (.jint ((listMax [4]).getD 0 + 1))))]))
    ∧ (∀ n ∈ ([4] : List Int), n < (listMax [4]).getD 0 + 1)
    ∧ ((listMax [4]).getD 0 + 1) ∉ ([4] : List Int)
    ∧ WellIds ([.jobj [("id", .jint 4), ("descricao", .jstr "mercado")]]
        ++ [.jobj (dset [("descricao", .jstr "padaria")] "id"
              (.jint ((listMax [4]).getD 0 + 1)))])
        ([4] ++ [(listMax [4]).getD 0 + 1])
    ∧ ([.jobj [("id", .jint 4), ("descricao", .jstr "mercado")]] = ([] : List JVal)
        → (listMax [4]).getD 0 + 1 = 1)
    ∧ inserir_transacao_updater [("descricao", .jstr "padaria")] none
        = some (.jarr [.jobj (dset [("descricao", .jstr "padaria")] "id" (.jint 1))])
    ∧ inserir_task_updater [("descricao", .jstr "padaria")] none
        = some (.jarr [.jobj (task_write_defaults
            (dset [("descricao", .jstr "padaria")] "id" (.jint 1)))])) := by
  refine ⟨.cons _ 4 _ _ rfl .nil, ?_⟩
  exact insert_assigns_max_plus_one [("descricao", .jstr "padaria")]
    [.jobj [("id", .jint 4), ("descricao", .jstr "mercado")]] [4]
    (.cons _ 4 _ _ rfl .nil)

theorem crud_preserves_distinct_ids_without_id_patch_witness :
    WellIds [.jobj [("id", .jint 4)], .jobj [("id", .jint 9)]] [4, 9]
    ∧ ([4, 9] : List Int).Nodup
    ∧ dget [("status", .jstr "Pago")] "id" = none
    ∧ ((∃ ys idsY,
          inserir_transacao_updater [("descricao", .jstr "luz")]
            (some (.jarr [.jobj [("id", .jint 4)], .jobj [("id", .jint 9)]]))
          = some (.jarr ys) ∧ WellIds ys idsY ∧ idsY.Nodup)
      ∧ (∃ ys,
          atualizar_registro_updater 4 [("status", .jstr "Pago")]
            (some (.jarr [.jobj [("id", .jint 4)], .jobj [("id", .jint 9)]]))
          = some (.jarr ys) ∧ WellIds ys [4, 9])
      ∧ (∃ ys idsY,
          deletar_registro_updater 4
            (some (.jarr [.jobj [("id", .jint 4)], .jobj [("id", .jint 9)]]))
          = some (.jarr ys) ∧ WellIds ys idsY ∧ idsY.Nodup)) := by
  refine ⟨WellIds.cons _ 4 _ _ rfl (WellIds.cons _ 9 _ _ rfl WellIds.nil), by decide, rfl, ?_⟩
  exact crud_preserves_distinct_ids_without_id_patch [("descricao", .jstr "luz")]
    [("status", .jstr "Pago")] 4 [.jobj [("id", .jint 4)], .jobj [("id", .jint 9)]]
    [4, 9] (.cons _ 4 _ _ rfl (.cons _ 9 _ _ rfl .nil)) (by decide) rfl

theorem update_by_id_merges_and_preserves_others_witness :
    WellIds [.jobj [("id", .jint 4)], .jobj [("id", .jint 9)]] [4, 9]
    ∧ (atualizar_registro_updater 9 [("valor", .jint 5)]
        (some (.jarr [.jobj [("id", .jint 4)], .jobj [("id", .jint 9)]]))
      = some (.jarr (([.jobj [("id", .jint 4)], .jobj [("id", .jint 9)]] : List JVal).map
          (patchPure 9 [("valor", .jint 5)])))
    ∧ ((([.jobj [("id", .jint 4)], .jobj [("id", .jint 9)]] : List JVal).map
          (patchPure 9 [("valor", .jint 5)])).length
        = ([.jobj [("id", .jint 4)], .jobj [("id", .jint 9)]] : List JVal).length)
    ∧ (∀ r : PyDict, dget r "id" = some (.jint 9) →
        patchPure 9 [("valor", .jint 5)] (.jobj r)
          = .jobj (dupdate r [("valor", .jint 5)]))
    ∧ (∀ (r : PyDict) (n : Int), dget r "id" = some (.jint n) → n ≠ 9 →
        patchPure 9 [("valor", .jint 5)] (.jobj r) = .jobj r)
    ∧ ((9 : Int) ∉ ([4, 9] : List Int) →
        atualizar_registro_updater 9 [("valor", .jint 5)]
          (some (.jarr [.jobj [("id", .jint 4)], .jobj [("id", .jint 9)]]))
        = some (.jarr [.jobj [("id", .jint 4)], .jobj [("id", .jint 9)]]))) := by
  refine ⟨.cons _ 4 _ _ rfl (.cons _ 9 _ _ rfl .nil), ?_⟩
  exact update_by_id_merges_and_preserves_others 9 [("valor", .jint 5)]
    [.jobj [("id", .jint 4)], .jobj [("id", .jint 9)]] [4, 9]
    (.cons _ 4 _ _ rfl (.cons _ 9 _ _ rfl .nil))

theorem bulk_delete_single_write_witness :
    1 ≤ 3
    ∧ ((deletar_tasks_bulk [1, 2, 5] idEnv 3
        ⟨some (.jarr [taskRow "a" 1, taskRow "b" 2, taskRow "c" 3], 0), 1⟩).2.2 = 1
    ∧ ∃ out, (deletar_tasks_bulk [1, 2, 5] idEnv 3
        ⟨some (.jarr [taskRow "a" 1, taskRow "b" 2, taskRow "c" 3], 0), 1⟩).1
        = some (out, (⟨some (.jarr [taskRow "a" 1, taskRow "b" 2, taskRow "c" 3], 0), 1⟩ : Store).ctr)) := by
  refine ⟨by norm_num, ?_⟩
  exact bulk_delete_single_write [1, 2, 5] 3
    ⟨some (.jarr [taskRow "a" 1, taskRow "b" 2, taskRow "c" 3], 0), 1⟩ (by norm_num)

theorem engine_writes_on_noop_and_creates_missing_witness :
    1 ≤ 8
    ∧ atualizar_registro_updater 7 [("status", .jstr "done")]
        (some (.jarr [.jobj [("id", .jint 1)]]))
      = some (.jarr [.jobj [("id", .jint 1)]])
    ∧ 0 < 1
    ∧ (safe_update_json (atualizar_registro_updater 7 [("status", .jstr "done")]) idEnv 8
        ⟨some (.jarr [.jobj [("id", .jint 1)]], 0), 1⟩
      = (some (.jarr [.jobj [("id", .jint 1)]], 1),
         ⟨some (.jarr [.jobj [("id", .jint 1)]], 1), 2⟩, 1)
    ∧ (1 : Nat) ≠ 0
    ∧ safe_update_json (atualizar_registro_updater 7 [("status", .jstr "done")]) idEnv 8
        ⟨none, 5⟩
      = (some (.jarr [], 5), ⟨some (.jarr [], 5), 6⟩, 1)) := by
  refine ⟨by norm_num, rfl, by norm_num, ?_⟩
  exact engine_writes_on_noop_and_creates_missing 7 [("status", .jstr "done")] 8
    (.jarr [.jobj [("id", .jint 1)]]) 0 1 5 (by norm_num) rfl (by norm_num)
